import Mathlib

/-!
Shallow embedding of the cache-backed npm documentation service
(`CacheService` and `NpmDocService` from `src/services`, configuration
defaults from `src/config/ConfigurationManager.ts`, data types from
`src/types/npmDocsTypes.ts`).

Modelling conventions:
* The SQLite table `npm_docs_cache` (primary key `package_name`) is an
  association list `Db` in which at most one row per key is maintained by
  `upsertRow` (mirroring `INSERT OR REPLACE`) and `eraseKey` (mirroring
  `DELETE ... WHERE package_name = ?`).
* `JSON.stringify` / `JSON.parse` round-tripping of the plain
  `NpmDocumentation` record is modelled by the `Payload` wrapper: a
  payload written by `set` is `Payload.good d` and parses back to `d`;
  externally corrupted content is `Payload.corrupt raw`, on which parsing
  fails (the `catch (parseError)` branch of `CacheService.get`).
* Failures of the underlying better-sqlite3 statements are modelled by
  explicit boolean success flags (`readOk`, `writeOk`, `clearOk`, ...):
  `true` means the statement ran, `false` means it threw.  The catch
  blocks of the source are then ordinary branches on these flags.
* Timestamps (`Date.now()`, `fetchedAt`) are integer milliseconds; `ttl`
  is integer seconds, exactly as stored in the table.
* The single axios HTTP exchange of `fetchFromNpmsIO` is modelled by the
  `HttpResult` oracle passed in from outside; the function itself is the
  response classification and normalization code of lines 330-398 of the
  service source.
-/

set_option autoImplicit false

/-- The normalized documentation record (`NpmDocumentation` in
`src/types/npmDocsTypes.ts`).  `author` is modelled as the extracted
author name (`metadata.author?.name`), dependency maps as association
lists. -/
structure NpmDocumentation where
  name : String
  version : String
  description : String
  homepage : Option String := none
  repository : Option String := none
  author : Option String := none
  license : Option String := none
  keywords : Option (List String) := none
  dependencies : Option (List (String × String)) := none
  devDependencies : Option (List (String × String)) := none
  readmeContent : Option String := none
  readme : Option String := none
deriving DecidableEq, Repr

/-- Stored serialized documentation: `good d` is the result of
`JSON.stringify d` and parses back to `d`; `corrupt raw` is content that
fails `JSON.parse`. -/
inductive Payload where
  | good (d : NpmDocumentation)
  | corrupt (raw : String)
deriving DecidableEq, Repr

/-- One row of the `npm_docs_cache` table: columns `documentation`
(as `Payload`), `fetched_at` (ms timestamp) and `ttl` (seconds). -/
structure Row where
  payload : Payload
  fetchedAt : Int
  ttl : Int
deriving DecidableEq, Repr

/-- The cache table keyed by `package_name`. -/
abbrev Db := List (String × Row)

/-- `SELECT ... WHERE package_name = ?` on the table. -/
def lookupRow : Db → String → Option Row
  | [], _ => none
  | (k, r) :: rest, name => if k = name then some r else lookupRow rest name

/-- `DELETE FROM npm_docs_cache WHERE package_name = ?`. -/
def eraseKey : Db → String → Db
  | [], _ => []
  | (k, r) :: rest, name =>
      if k = name then eraseKey rest name else (k, r) :: eraseKey rest name

/-- `INSERT OR REPLACE INTO npm_docs_cache ...` (primary-key upsert). -/
def upsertRow (db : Db) (name : String) (r : Row) : Db :=
  (name, r) :: eraseKey db name

/-- `CacheEntry` from `src/types/npmDocsTypes.ts`: the in-memory shape
returned by `CacheService.get` (`fetchedAt` is the `Date` as its ms
timestamp). -/
structure CacheEntry where
  packageName : String
  documentation : NpmDocumentation
  fetchedAt : Int
  ttl : Int
deriving DecidableEq, Repr

/-- The `CacheError` class from `src/types/npmDocsTypes.ts`. -/
structure CacheError where
  message : String
deriving DecidableEq, Repr

/-- `CacheService.get` (source lines 55-92): returns the row for
`packageName`, or `none` when absent; when the stored payload fails to
parse, it deletes the row (via `clearCache`, whose own failure is caught
and only logged — flag `clearOk`) and returns `none`; when the SELECT
itself throws (flag `readOk = false`) it returns `none` instead of
raising.  The second component is the table after the call. -/
def CacheService.get (db : Db) (readOk clearOk : Bool) (packageName : String) :
    Option CacheEntry × Db :=
  if readOk then
    match lookupRow db packageName with
    | none => (none, db)
    | some row =>
        match row.payload with
        | .corrupt _ => (none, if clearOk then eraseKey db packageName else db)
        | .good d =>
            (some { packageName := packageName, documentation := d,
                    fetchedAt := row.fetchedAt, ttl := row.ttl }, db)
  else (none, db)

/-- `CacheService.set` (source lines 101-126): upserts the row with
`fetched_at = Date.now()` (parameter `now`) and the supplied `ttl`;
when the INSERT throws (flag `writeOk = false`) it raises `CacheError`. -/
def CacheService.set (db : Db) (writeOk : Bool) (packageName : String)
    (documentation : NpmDocumentation) (ttl : Int) (now : Int) :
    Except CacheError Db :=
  if writeOk then
    .ok (upsertRow db packageName
          { payload := .good documentation, fetchedAt := now, ttl := ttl })
  else
    .error { message := "Cache update failed for " ++ packageName }

/-- `CacheService.isCached` (source lines 133-154): reads the entry via
`get`; absent means `false`; otherwise valid iff
`now < fetchedAt + ttl * 1000` (ms); any error yields `false`. -/
def CacheService.isCached (db : Db) (readOk clearOk : Bool) (packageName : String)
    (now : Int) : Bool × Db :=
  match CacheService.get db readOk clearOk packageName with
  | (none, db1) => (false, db1)
  | (some entry, db1) => (decide (now < entry.fetchedAt + entry.ttl * 1000), db1)

/-- `CacheService.clearCache` (source lines 161-179): deletes one row or
the whole table; when the DELETE throws (flag `ok = false`) it raises
`CacheError` (it does not degrade to a no-op). -/
def CacheService.clearCache (db : Db) (ok : Bool) (packageName : Option String) :
    Except CacheError Db :=
  if ok then
    match packageName with
    | some n => .ok (eraseKey db n)
    | none => .ok []
  else .error { message := "Cache clear operation failed" }

/-- `encodeURIComponent` on the UTF-8 bytes of one character. -/
def utf8BytesOfChar (c : Char) : List Nat :=
  let n := c.toNat
  if n < 128 then [n]
  else if n < 2048 then [192 + n / 64, 128 + n % 64]
  else if n < 65536 then [224 + n / 4096, 128 + n / 64 % 64, 128 + n % 64]
  else [240 + n / 262144, 128 + n / 4096 % 64, 128 + n / 64 % 64, 128 + n % 64]

/-- Bytes left unescaped by JavaScript `encodeURIComponent`:
alphanumerics and `- _ . ! ~ * ( )` and the apostrophe (code 39). -/
def isUnreservedByte (b : Nat) : Bool :=
  (48 ≤ b && b ≤ 57) || (65 ≤ b && b ≤ 90) || (97 ≤ b && b ≤ 122) ||
  b = 45 || b = 95 || b = 46 || b = 33 || b = 126 || b = 42 ||
  b = 39 || b = 40 || b = 41

/-- Uppercase hexadecimal digit for a value below 16. -/
def hexDigitChar (n : Nat) : Char :=
  if n < 10 then Char.ofNat (48 + n) else Char.ofNat (55 + n)

/-- Percent-encoding of one UTF-8 byte (code 37 is the percent sign). -/
def encodeByte (b : Nat) : List Char :=
  if isUnreservedByte b then [Char.ofNat b]
  else [Char.ofNat 37, hexDigitChar (b / 16), hexDigitChar (b % 16)]

/-- JavaScript `encodeURIComponent`, as used on the package name when the
request URL is built. -/
def encodeURIComponent (s : String) : String :=
  String.mk (((s.toList.map utf8BytesOfChar).flatten.map encodeByte).flatten)

/-- `NpmDocServiceConfig` from `src/types/npmDocsTypes.ts`. -/
structure NpmDocServiceConfig where
  cacheTtl : Int
  dbPath : String
  npmRegistry : String
deriving DecidableEq, Repr

/-- The configuration defaults installed by `ConfigurationManager`
(`src/config/ConfigurationManager.ts` lines 36-40); the default `dbPath`
is a resolved filesystem path, represented here by its file name. -/
def defaultNpmDocServiceConfig : NpmDocServiceConfig :=
  { cacheTtl := 86400
    dbPath := "npm-docs-cache.db"
    npmRegistry := "https://registry.npmjs.org" }

/-- The private field `npmsApiBaseUrl` of `NpmDocService` (line 237 of
the service source): a hard-coded constant, not read from configuration. -/
def NpmDocService.npmsApiBaseUrl : String := "https://api.npms.io/v2"

/-- The request URL built by `fetchFromNpmsIO` (line 331):
`npmsApiBaseUrl + "/package/" + encodeURIComponent(packageName)`.  The
service configuration is passed in to express that the URL is computed in
a context where `cfg.npmRegistry` is available but unused. -/
def NpmDocService.fetchUrl (cfg : NpmDocServiceConfig) (packageName : String) : String :=
  NpmDocService.npmsApiBaseUrl ++ "/package/" ++ encodeURIComponent packageName

-- basic lemmas about the table

theorem lookupRow_eraseKey (db : Db) (name : String) :
    lookupRow (eraseKey db name) name = none := by
  induction db with
  | nil => rfl
  | cons p rest ih =>
      obtain ⟨k, r⟩ := p
      by_cases hk : k = name
      · simp [eraseKey, hk, ih]
      · simp [eraseKey, lookupRow, hk, ih]

theorem lookupRow_upsertRow (db : Db) (name : String) (r : Row) :
    lookupRow (upsertRow db name r) name = some r := by
  simp [upsertRow, lookupRow]

/-- The typed error taxonomy surfaced by `NpmDocService.getDocumentation`
(`NotFoundError`, `NetworkError`, `CacheError` and the generic `Error`
fallback of `src/types/npmDocsTypes.ts`), as a tagged variant. -/
inductive DocError where
  | notFoundErr (msg : String)
  | networkErr (msg : String)
  | cacheErr (msg : String)
  | unexpectedErr (msg : String)
deriving DecidableEq, Repr

/-- Recognizes the `CacheError` variant. -/
def DocError.isCacheError : DocError → Bool
  | .cacheErr _ => true
  | _ => false

/-- The `collected.metadata` object of the npms.io response body
(interface `NpmsIOResponse` of the service source, lines 210-231).
`authorName` stands for `author?.name`; absent optional chains are
`none`. -/
structure NpmsMetadata where
  name : String
  version : Option String := none
  description : Option String := none
  keywords : Option (List String) := none
  authorName : Option String := none
  license : Option String := none
  homepage : Option String := none
  repository : Option String := none
  dependencies : Option (List (String × String)) := none
  devDependencies : Option (List (String × String)) := none
  readme : Option String := none
deriving DecidableEq, Repr

/-- Outcome of the single axios GET performed by the Registry Client:
a 2xx response carrying `collected.metadata` when present, an HTTP error
status (`error.response`), a transport failure with no response
(`error.request`), or a non-axios failure (the final fallback branch). -/
inductive HttpResult where
  | success (meta : Option NpmsMetadata)
  | httpError (status : Nat) (statusText : String)
  | transportError (message : String)
  | unexpectedFailure (message : String)
deriving DecidableEq, Repr

/-- JavaScript `x || d` on an optional string: the default is taken when
the value is absent or the empty string (falsy). -/
def jsOr (x : Option String) (d : String) : String :=
  match x with
  | none => d
  | some s => if s = "" then d else s

/-- The normalization of `collected.metadata` into `NpmDocumentation`
(service source lines 352-367): `version` defaults to `"unknown"`,
`description` to `""`; the `readme` marker is set only when readme text
is present (truthy), while `readmeContent` carries it verbatim. -/
def normalizeMetadata (md : NpmsMetadata) : NpmDocumentation :=
  { name := md.name
    version := jsOr md.version "unknown"
    description := jsOr md.description ""
    homepage := md.homepage
    repository := md.repository
    author := md.authorName
    license := md.license
    keywords := md.keywords
    dependencies := md.dependencies
    devDependencies := md.devDependencies
    readmeContent := md.readme
    readme := if jsOr md.readme "" = "" then none
              else some "README content included via npms.io" }

/-- The response handling of `NpmDocService.fetchFromNpmsIO` (service
source lines 330-398): missing or falsy-named metadata in a successful
response is a not-found error; HTTP 404 is a not-found error; any other
HTTP error status is a network error; a transport failure is a network
error; anything else is the generic unexpected error. -/
def NpmDocService.fetchFromNpms (resp : HttpResult) (packageName : String) :
    Except DocError NpmDocumentation :=
  match resp with
  | .success meta =>
      match meta with
      | none =>
          .error (.notFoundErr ("Package " ++ packageName ++ " not found via npms.io."))
      | some md =>
          if md.name = "" then
            .error (.notFoundErr ("Package " ++ packageName ++ " not found via npms.io."))
          else
            .ok (normalizeMetadata md)
  | .httpError status statusText =>
      if status = 404 then
        .error (.notFoundErr ("Package " ++ packageName ++ " not found."))
      else
        .error (.networkErr ("Failed to fetch from npms.io: HTTP " ++
                  toString status ++ " " ++ statusText))
  | .transportError m =>
      .error (.networkErr ("Network error connecting to npms.io: " ++ m))
  | .unexpectedFailure m =>
      .error (.unexpectedErr ("An unexpected error occurred while fetching from npms.io: " ++ m))

/-- Result of one `getDocumentation` call: the returned value or raised
error, the cache table afterwards, and whether the Registry Client fetch
was invoked. -/
structure DocResult where
  result : Except DocError NpmDocumentation
  db : Db
  fetchInvoked : Bool
deriving Repr

/-- Steps 2-3 of `getDocumentation` (service source lines 298-321): fetch
from npms.io, propagating its typed error; on success try to store via
`CacheService.set` with the configured TTL, swallowing a write failure;
return the fetched record. -/
def NpmDocService.fetchAndStore (cfg : NpmDocServiceConfig) (db : Db)
    (resp : HttpResult) (writeOk : Bool) (packageName : String) (now : Int) :
    DocResult :=
  match NpmDocService.fetchFromNpms resp packageName with
  | .error e => { result := .error e, db := db, fetchInvoked := true }
  | .ok docs =>
      match CacheService.set db writeOk packageName docs cfg.cacheTtl now with
      | .ok db2 => { result := .ok docs, db := db2, fetchInvoked := true }
      | .error _ => { result := .ok docs, db := db, fetchInvoked := true }

/-- `NpmDocService.getDocumentation` (service source lines 269-321).
Unless `forceFresh`, first consult `isCached`; on a valid entry read it
back with `get` and return its documentation (no fetch); if that read
unexpectedly comes back empty, or the entry is missing/expired, fall
through to the fetch-and-store path.  `readOk1`/`readOk2` model the
success of the two separate underlying reads (`isCached` and the direct
`get`), `clearOk` the corruption-path delete, `writeOk` the cache write;
the surrounding `catch (cacheError)` of step 1 never fires because
`isCached` and `get` swallow their own failures. -/
def NpmDocService.getDocumentation (cfg : NpmDocServiceConfig) (db : Db)
    (resp : HttpResult) (readOk1 readOk2 clearOk writeOk : Bool)
    (packageName : String) (forceFresh : Bool) (now : Int) : DocResult :=
  if forceFresh then
    NpmDocService.fetchAndStore cfg db resp writeOk packageName now
  else
    let checked := CacheService.isCached db readOk1 clearOk packageName now
    if checked.1 then
      let fetched := CacheService.get checked.2 readOk2 clearOk packageName
      match fetched.1 with
      | some entry =>
          { result := .ok entry.documentation, db := fetched.2, fetchInvoked := false }
      | none =>
          NpmDocService.fetchAndStore cfg fetched.2 resp writeOk packageName now
    else
      NpmDocService.fetchAndStore cfg checked.2 resp writeOk packageName now

/-- Whether an outcome of `getDocumentation` is a raised `CacheError`. -/
def resultIsCacheError (r : Except DocError NpmDocumentation) : Bool :=
  match r with
  | .error e => e.isCacheError
  | .ok _ => false

/-- A concrete documentation record used to instantiate the theorems. -/
def sampleDoc : NpmDocumentation :=
  { name := "react"
    version := "18.2.0"
    description := "React is a JavaScript library for building user interfaces." }

/-- A concrete `collected.metadata` body for `sampleDoc`. -/
def sampleMetadata : NpmsMetadata :=
  { name := "react"
    version := some "18.2.0"
    description := some "React is a JavaScript library for building user interfaces." }

-- helper lemmas about the state threading of the cache operations

theorem CacheService.get_db_cases (db : Db) (r c : Bool) (name : String) :
    (CacheService.get db r c name).2 = db ∨
    (CacheService.get db r c name).2 = eraseKey db name := by
  cases r with
  | false => exact Or.inl rfl
  | true =>
      cases hl : lookupRow db name with
      | none => left; simp [CacheService.get, hl]
      | some row =>
          cases hp : row.payload with
          | good d => left; simp [CacheService.get, hl, hp]
          | corrupt s =>
              cases c with
              | false => left; simp [CacheService.get, hl, hp]
              | true => right; simp [CacheService.get, hl, hp]

theorem CacheService.isCached_snd (db : Db) (r c : Bool) (name : String) (now : Int) :
    (CacheService.isCached db r c name now).2 = (CacheService.get db r c name).2 := by
  simp only [CacheService.isCached]
  rcases hg : CacheService.get db r c name with ⟨o, db1⟩
  cases o <;> simp

theorem CacheService.isCached_db_cases (db : Db) (r c : Bool) (name : String) (now : Int) :
    (CacheService.isCached db r c name now).2 = db ∨
    (CacheService.isCached db r c name now).2 = eraseKey db name := by
  rw [CacheService.isCached_snd]
  exact CacheService.get_db_cases db r c name

/-- C1 counterexample: at the default configuration (whose registry base
URL is `https://registry.npmjs.org`) and package `react`, the request URL
built by the fetch routine is not of the form
`{registryBaseUrl}/package/{urlEncodedPackageName}`: the hard-coded
npms.io base is used instead of the configured registry. -/
theorem fetchUrl_ignores_configured_registry_cex :
    NpmDocService.fetchUrl defaultNpmDocServiceConfig "react" ≠
      defaultNpmDocServiceConfig.npmRegistry ++ "/package/" ++
        encodeURIComponent "react" := by
  decide

/-- C1 (amended): for every configuration and package name, the single
fetch issues its GET to `npmsApiBaseUrl ++ "/package/" ++
encodeURIComponent packageName` where `npmsApiBaseUrl` is the hard-coded
constant `https://api.npms.io/v2`; the URL is independent of the
configuration (in particular of its registry base URL). -/
theorem fetchUrl_is_hardcoded_npms_base :
    ∀ (cfg cfg2 : NpmDocServiceConfig) (name : String),
      NpmDocService.fetchUrl cfg name = NpmDocService.fetchUrl cfg2 name ∧
      NpmDocService.fetchUrl cfg name =
        NpmDocService.npmsApiBaseUrl ++ "/package/" ++ encodeURIComponent name ∧
      NpmDocService.npmsApiBaseUrl = "https://api.npms.io/v2" := by
  intro cfg cfg2 name
  exact ⟨rfl, rfl, rfl⟩

/-- C5 counterexample: a failure of the underlying store during
`clearCache` (the invalidate operation) does not degrade to a no-op; the
operation raises a `CacheError` to its caller. -/
theorem clearCache_failure_raises_cex :
    CacheService.clearCache [] false (some "react") =
      Except.error { message := "Cache clear operation failed" } := rfl

/-- C5 (amended): on a failure of the underlying store, `get` degrades to
a miss and `isCached` to `false` without raising, while both `set` and
`clearCache` (invalidate) report the failure to the caller as a
`CacheError`. -/
theorem cache_ops_failure_semantics :
    ∀ (db : Db) (clearOk : Bool) (name : String) (nameOpt : Option String)
      (d : NpmDocumentation) (t now : Int),
      CacheService.get db false clearOk name = (none, db) ∧
      CacheService.isCached db false clearOk name now = (false, db) ∧
      CacheService.set db false name d t now =
        Except.error { message := "Cache update failed for " ++ name } ∧
      CacheService.clearCache db false nameOpt =
        Except.error { message := "Cache clear operation failed" } := by
  intro db clearOk name nameOpt d t now
  exact ⟨rfl, rfl, rfl, rfl⟩

/-- C6: with a working store, `isCached` is `true` exactly when a
well-formed entry for the name exists and `now` is strictly below
`fetchedAt + ttl` (ttl in seconds, times in ms); a failing read yields
`false`; and at the boundary, an entry fetched 10 seconds ago with
`ttl = 10` is invalid while `ttl = 11` is valid. -/
theorem isCached_validity_spec :
    ∀ (db : Db) (clearOk : Bool) (name : String) (now : Int),
      ((CacheService.isCached db true clearOk name now).1 = true ↔
        ∃ d fa t, lookupRow db name =
            some { payload := .good d, fetchedAt := fa, ttl := t } ∧
          now < fa + t * 1000) ∧
      ((CacheService.isCached db false clearOk name now).1 = false) ∧
      (∀ d : NpmDocumentation,
        (CacheService.isCached
          [(name, { payload := .good d, fetchedAt := now - 10 * 1000, ttl := 10 })]
          true clearOk name now).1 = false) ∧
      (∀ d : NpmDocumentation,
        (CacheService.isCached
          [(name, { payload := .good d, fetchedAt := now - 10 * 1000, ttl := 11 })]
          true clearOk name now).1 = true) := by
  intro db clearOk name now
  refine ⟨?_, rfl, ?_, ?_⟩
  · cases hl : lookupRow db name with
    | none => simp [CacheService.isCached, CacheService.get, hl]
    | some row =>
        obtain ⟨p, fa, t⟩ := row
        cases p with
        | good d =>
            simp only [CacheService.isCached, CacheService.get, hl]
            simp only [if_true]
            constructor
            · intro h2
              simp only [decide_eq_true_eq] at h2
              exact ⟨d, fa, t, rfl, h2⟩
            · rintro ⟨d2, fa2, t2, heq, hlt⟩
              simp only [Option.some.injEq, Row.mk.injEq, Payload.good.injEq] at heq
              obtain ⟨hd2, hf2, ht2⟩ := heq
              simp only [decide_eq_true_eq]
              omega
        | corrupt s => simp [CacheService.isCached, CacheService.get, hl]
  · intro d
    simp [CacheService.isCached, CacheService.get, lookupRow]
  · intro d
    simp [CacheService.isCached, CacheService.get, lookupRow]
    omega

/-- C7: when the stored payload for a key is corrupted, a working `get`
deletes the entry as a side effect and returns absent without raising;
afterwards no row for the key remains and a subsequent `get` also
returns absent. -/
theorem get_corruption_self_heal (db : Db) (name raw : String) (fa t : Int)
    (h : lookupRow db name =
      some { payload := .corrupt raw, fetchedAt := fa, ttl := t }) :
    CacheService.get db true true name = (none, eraseKey db name) ∧
    lookupRow (eraseKey db name) name = none ∧
    CacheService.get (eraseKey db name) true true name =
      (none, eraseKey db name) := by
  refine ⟨?_, lookupRow_eraseKey db name, ?_⟩
  · simp [CacheService.get, h]
  · simp [CacheService.get, lookupRow_eraseKey]

/-- A concrete table holding one corrupted row, for the C7 witness. -/
def corruptDb : Db :=
  [("react", { payload := .corrupt "oops", fetchedAt := 0, ttl := 60 })]

/-- C7 witness at a concrete corrupted table. -/
theorem get_corruption_self_heal_witness :
    CacheService.get corruptDb true true "react" = (none, eraseKey corruptDb "react") ∧
    lookupRow (eraseKey corruptDb "react") "react" = none ∧
    CacheService.get (eraseKey corruptDb "react") true true "react" =
      (none, eraseKey corruptDb "react") :=
  get_corruption_self_heal corruptDb "react" "oops" 0 60 (by rfl)

/-- C8: for every record `d` and TTL `t > 0`, a successful
`set name d t` followed immediately by `get name` returns a present
entry whose documentation equals `d` and whose ttl equals `t` (and whose
`fetchedAt` is the write time). -/
theorem cache_set_get_round_trip (db : Db) (clearOk : Bool) (name : String)
    (d : NpmDocumentation) (t now : Int) (ht : 0 < t) :
    ∃ db2, CacheService.set db true name d t now = Except.ok db2 ∧
      (CacheService.get db2 true clearOk name).1 =
        some { packageName := name, documentation := d,
               fetchedAt := now, ttl := t } := by
  refine ⟨upsertRow db name { payload := .good d, fetchedAt := now, ttl := t },
    rfl, ?_⟩
  simp [CacheService.get, lookupRow_upsertRow]

/-- C8 witness at a concrete record, TTL and empty table. -/
theorem cache_set_get_round_trip_witness :
    (0 : Int) < 86400 ∧
    ∃ db2, CacheService.set [] true "react" sampleDoc 86400 0 = Except.ok db2 ∧
      (CacheService.get db2 true true "react").1 =
        some { packageName := "react", documentation := sampleDoc,
               fetchedAt := 0, ttl := 86400 } :=
  ⟨by decide, cache_set_get_round_trip [] true "react" sampleDoc 86400 0 (by decide)⟩

-- helper lemmas about the fetch-and-store path

theorem eraseKey_idem (db : Db) (name : String) :
    eraseKey (eraseKey db name) name = eraseKey db name := by
  induction db with
  | nil => rfl
  | cons p rest ih =>
      obtain ⟨k, r⟩ := p
      by_cases hk : k = name
      · simp [eraseKey, hk, ih]
      · simp [eraseKey, hk, ih]

theorem NpmDocService.fetchAndStore_error (cfg : NpmDocServiceConfig) (db : Db)
    (resp : HttpResult) (w : Bool) (name : String) (now : Int) (e : DocError)
    (h : NpmDocService.fetchFromNpms resp name = .error e) :
    NpmDocService.fetchAndStore cfg db resp w name now =
      { result := .error e, db := db, fetchInvoked := true } := by
  simp [NpmDocService.fetchAndStore, h]

theorem NpmDocService.fetchAndStore_ok_result (cfg : NpmDocServiceConfig) (db : Db)
    (resp : HttpResult) (w : Bool) (name : String) (now : Int) (d : NpmDocumentation)
    (h : NpmDocService.fetchFromNpms resp name = .ok d) :
    (NpmDocService.fetchAndStore cfg db resp w name now).result = .ok d ∧
    (NpmDocService.fetchAndStore cfg db resp w name now).fetchInvoked = true := by
  cases w <;> simp [NpmDocService.fetchAndStore, CacheService.set, h]

theorem NpmDocService.fetch_error_not_cache (resp : HttpResult) (name : String)
    (e : DocError) (h : NpmDocService.fetchFromNpms resp name = .error e) :
    e.isCacheError = false := by
  cases resp with
  | success meta =>
      cases meta with
      | none =>
          simp [NpmDocService.fetchFromNpms] at h
          simp [← h, DocError.isCacheError]
      | some md =>
          by_cases hn : md.name = ""
          · simp [NpmDocService.fetchFromNpms, hn] at h
            simp [← h, DocError.isCacheError]
          · simp [NpmDocService.fetchFromNpms, hn] at h
  | httpError s txt =>
      by_cases h4 : s = 404
      · simp [NpmDocService.fetchFromNpms, h4] at h
        simp [← h, DocError.isCacheError]
      · simp [NpmDocService.fetchFromNpms, h4] at h
        simp [← h, DocError.isCacheError]
  | transportError m =>
      simp [NpmDocService.fetchFromNpms] at h
      simp [← h, DocError.isCacheError]
  | unexpectedFailure m =>
      simp [NpmDocService.fetchFromNpms] at h
      simp [← h, DocError.isCacheError]

theorem NpmDocService.getDocumentation_cases (cfg : NpmDocServiceConfig) (db : Db)
    (resp : HttpResult) (r1 r2 c w : Bool) (name : String) (ff : Bool) (now : Int) :
    (∃ entry db2,
      NpmDocService.getDocumentation cfg db resp r1 r2 c w name ff now =
        { result := .ok (CacheEntry.documentation entry), db := db2,
          fetchInvoked := false }) ∨
    (∃ db0,
      NpmDocService.getDocumentation cfg db resp r1 r2 c w name ff now =
        NpmDocService.fetchAndStore cfg db0 resp w name now ∧
      (db0 = db ∨ db0 = eraseKey db name)) := by
  cases ff with
  | true =>
      right
      exact ⟨db, rfl, Or.inl rfl⟩
  | false =>
      have hdb1 := CacheService.isCached_db_cases db r1 c name now
      rcases hic : CacheService.isCached db r1 c name now with ⟨b, db1⟩
      rw [hic] at hdb1
      have hdb1 : db1 = db ∨ db1 = eraseKey db name := hdb1
      cases b with
      | false =>
          refine Or.inr ⟨db1, ?_, hdb1⟩
          simp [NpmDocService.getDocumentation, hic]
      | true =>
          have hdb2 := CacheService.get_db_cases db1 r2 c name
          rcases hg : CacheService.get db1 r2 c name with ⟨o, db2⟩
          rw [hg] at hdb2
          have hdb2 : db2 = db1 ∨ db2 = eraseKey db1 name := hdb2
          cases o with
          | some entry =>
              refine Or.inl ⟨entry, db2, ?_⟩
              simp [NpmDocService.getDocumentation, hic, hg]
          | none =>
              refine Or.inr ⟨db2, ?_, ?_⟩
              · simp [NpmDocService.getDocumentation, hic, hg]
              · rcases hdb1 with h1 | h1
                · subst h1
                  rcases hdb2 with h2 | h2
                  · exact Or.inl h2
                  · exact Or.inr h2
                · subst h1
                  rcases hdb2 with h2 | h2
                  · exact Or.inr h2
                  · rw [eraseKey_idem] at h2
                    exact Or.inr h2

/-- C9: no call of `getDocumentation` surfaces a `CacheError` during
steady-state operation: every cache read, validity-check and write
failure inside the call is handled internally, so only not-found,
network or generic unexpected errors can escape (despite the function's
doc comment listing `CacheError` as a possible throw). -/
theorem getDocumentation_never_raises_cache_error :
    ∀ (cfg : NpmDocServiceConfig) (db : Db) (resp : HttpResult)
      (r1 r2 c w : Bool) (name : String) (ff : Bool) (now : Int),
      resultIsCacheError
        (NpmDocService.getDocumentation cfg db resp r1 r2 c w name ff now).result
        = false := by
  intro cfg db resp r1 r2 c w name ff now
  have hfs : ∀ db0 : Db,
      resultIsCacheError
        (NpmDocService.fetchAndStore cfg db0 resp w name now).result = false := by
    intro db0
    cases hf : NpmDocService.fetchFromNpms resp name with
    | error e =>
        rw [NpmDocService.fetchAndStore_error cfg db0 resp w name now e hf]
        simp [resultIsCacheError,
          NpmDocService.fetch_error_not_cache resp name e hf]
    | ok d =>
        rw [(NpmDocService.fetchAndStore_ok_result cfg db0 resp w name now d hf).1]
        rfl
  rcases NpmDocService.getDocumentation_cases cfg db resp r1 r2 c w name ff now with
    ⟨entry, db2, hEq⟩ | ⟨db0, hEq, hdb0⟩
  · rw [hEq]
    rfl
  · rw [hEq]
    exact hfs db0

/-- C2: with a valid (non-expired) well-formed cache entry present and
working reads, `getDocumentation(name, false)` returns the cached
documentation unchanged and never invokes the Registry Client. -/
theorem getDocumentation_cache_hit_short_circuit
    (cfg : NpmDocServiceConfig) (db : Db) (resp : HttpResult) (c w : Bool)
    (name : String) (d : NpmDocumentation) (fa t now : Int)
    (hlook : lookupRow db name =
      some { payload := .good d, fetchedAt := fa, ttl := t })
    (hvalid : now < fa + t * 1000) :
    (NpmDocService.getDocumentation cfg db resp true true c w name false now).result
      = .ok d ∧
    (NpmDocService.getDocumentation cfg db resp true true c w name false now).fetchInvoked
      = false := by
  have hget : CacheService.get db true c name =
      (some { packageName := name, documentation := d, fetchedAt := fa, ttl := t },
        db) := by
    simp [CacheService.get, hlook]
  have hic : CacheService.isCached db true c name now = (true, db) := by
    simp [CacheService.isCached, hget, hvalid]
  simp [NpmDocService.getDocumentation, hic, hget]

/-- A concrete table with one valid well-formed entry for `react`. -/
def hitDb : Db :=
  [("react", { payload := .good sampleDoc, fetchedAt := 1000, ttl := 60 })]

/-- C2 witness: at a concrete table with a valid entry, the call returns
the cached record and does not fetch. -/
theorem getDocumentation_cache_hit_short_circuit_witness :
    (NpmDocService.getDocumentation defaultNpmDocServiceConfig hitDb
        (.transportError "offline") true true true true "react" false 2000).result
      = .ok sampleDoc ∧
    (NpmDocService.getDocumentation defaultNpmDocServiceConfig hitDb
        (.transportError "offline") true true true true "react" false 2000).fetchInvoked
      = false :=
  getDocumentation_cache_hit_short_circuit defaultNpmDocServiceConfig hitDb
    (.transportError "offline") true true "react" sampleDoc 1000 60 2000
    (by rfl) (by decide)

/-- C10: on the cache-hit path (valid, well-formed entry, working reads)
`getDocumentation(name, false)` leaves the cache store completely
unchanged: no write, refresh or delete occurs. -/
theorem getDocumentation_cache_hit_frame
    (cfg : NpmDocServiceConfig) (db : Db) (resp : HttpResult) (c w : Bool)
    (name : String) (d : NpmDocumentation) (fa t now : Int)
    (hlook : lookupRow db name =
      some { payload := .good d, fetchedAt := fa, ttl := t })
    (hvalid : now < fa + t * 1000) :
    (NpmDocService.getDocumentation cfg db resp true true c w name false now).db
      = db := by
  have hget : CacheService.get db true c name =
      (some { packageName := name, documentation := d, fetchedAt := fa, ttl := t },
        db) := by
    simp [CacheService.get, hlook]
  have hic : CacheService.isCached db true c name now = (true, db) := by
    simp [CacheService.isCached, hget, hvalid]
  simp [NpmDocService.getDocumentation, hic, hget]

/-- C10 witness: at a concrete table with a valid entry, the table after
the call is the table before. -/
theorem getDocumentation_cache_hit_frame_witness :
    (NpmDocService.getDocumentation defaultNpmDocServiceConfig hitDb
        (.transportError "offline") true true true true "react" false 1500).db
      = hitDb :=
  getDocumentation_cache_hit_frame defaultNpmDocServiceConfig hitDb
    (.transportError "offline") true true "react" sampleDoc 1000 60 1500
    (by rfl) (by decide)

/-- C3: when the Registry Client fetch succeeds but the subsequent cache
write fails, `getDocumentation` still returns the freshly fetched
documentation record rather than an error. -/
theorem getDocumentation_write_failure_tolerance
    (cfg : NpmDocServiceConfig) (db : Db) (resp : HttpResult)
    (r1 r2 c : Bool) (name : String) (ff : Bool) (now : Int)
    (d : NpmDocumentation)
    (hf : NpmDocService.fetchFromNpms resp name = .ok d)
    (hinv : (NpmDocService.getDocumentation cfg db resp r1 r2 c false name
        ff now).fetchInvoked = true) :
    (NpmDocService.getDocumentation cfg db resp r1 r2 c false name ff now).result
      = .ok d := by
  rcases NpmDocService.getDocumentation_cases cfg db resp r1 r2 c false name ff now
    with ⟨entry, db2, hEq⟩ | ⟨db0, hEq, hdb0⟩
  · rw [hEq] at hinv
    simp at hinv
  · rw [hEq]
    exact (NpmDocService.fetchAndStore_ok_result cfg db0 resp false name now d hf).1

/-- C3 witness: with an empty cache, a successful upstream response and a
failing cache write, the call still returns the normalized record. -/
theorem getDocumentation_write_failure_tolerance_witness :
    (NpmDocService.getDocumentation defaultNpmDocServiceConfig []
        (.success (some sampleMetadata)) true true true false "react" true 0).result
      = .ok sampleDoc :=
  getDocumentation_write_failure_tolerance defaultNpmDocServiceConfig []
    (.success (some sampleMetadata)) true true true "react" true 0 sampleDoc
    (by rfl) (by rfl)

/-- C4: when the Registry Client fetch fails, `getDocumentation`
propagates the typed error unchanged — an upstream HTTP 404 surfaces as
the NotFound-class error, a non-404 HTTP failure or transport failure as
the Network-class error — and on this error path no cache entry is
created or overwritten for the package name. -/
theorem getDocumentation_propagates_fetch_errors
    (cfg : NpmDocServiceConfig) (db : Db) (resp : HttpResult)
    (r1 r2 c w : Bool) (name : String) (ff : Bool) (now : Int) (e : DocError)
    (hf : NpmDocService.fetchFromNpms resp name = .error e)
    (hinv : (NpmDocService.getDocumentation cfg db resp r1 r2 c w name
        ff now).fetchInvoked = true) :
    (NpmDocService.getDocumentation cfg db resp r1 r2 c w name ff now).result
      = .error e ∧
    (∀ row : Row,
      lookupRow
        (NpmDocService.getDocumentation cfg db resp r1 r2 c w name ff now).db name
        = some row →
      lookupRow db name = some row) ∧
    (∀ txt, resp = .httpError 404 txt →
      e = .notFoundErr ("Package " ++ name ++ " not found.")) ∧
    (∀ s txt, resp = .httpError s txt → s ≠ 404 →
      e = .networkErr ("Failed to fetch from npms.io: HTTP " ++
            toString s ++ " " ++ txt)) ∧
    (∀ m, resp = .transportError m →
      e = .networkErr ("Network error connecting to npms.io: " ++ m)) := by
  rcases NpmDocService.getDocumentation_cases cfg db resp r1 r2 c w name ff now
    with ⟨entry, db2, hEq⟩ | ⟨db0, hEq, hdb0⟩
  · rw [hEq] at hinv
    simp at hinv
  · rw [hEq, NpmDocService.fetchAndStore_error cfg db0 resp w name now e hf]
    refine ⟨rfl, ?_, ?_, ?_, ?_⟩
    · intro row hrow
      rcases hdb0 with h0 | h0
      · subst h0
        exact hrow
      · subst h0
        have hrow2 : lookupRow (eraseKey db name) name = some row := hrow
        rw [lookupRow_eraseKey] at hrow2
        simp at hrow2
    · intro txt hresp
      subst hresp
      simp [NpmDocService.fetchFromNpms] at hf
      exact hf.symm
    · intro s txt hresp hs
      subst hresp
      simp [NpmDocService.fetchFromNpms, hs] at hf
      exact hf.symm
    · intro m hresp
      subst hresp
      simp [NpmDocService.fetchFromNpms] at hf
      exact hf.symm

/-- C4 witness: an upstream 404 for `left-pad-xyz-missing` with an empty
cache surfaces the NotFound-class error to the caller. -/
theorem getDocumentation_propagates_fetch_errors_witness :
    (NpmDocService.getDocumentation defaultNpmDocServiceConfig []
        (.httpError 404 "Not Found") true true true true
        "left-pad-xyz-missing" true 0).result
      = .error (.notFoundErr ("Package " ++ "left-pad-xyz-missing" ++ " not found.")) ∧
    lookupRow (NpmDocService.getDocumentation defaultNpmDocServiceConfig []
        (.httpError 404 "Not Found") true true true true
        "left-pad-xyz-missing" true 0).db "left-pad-xyz-missing" = none :=
  ⟨(getDocumentation_propagates_fetch_errors defaultNpmDocServiceConfig []
      (.httpError 404 "Not Found") true true true true
      "left-pad-xyz-missing" true 0
      (.notFoundErr ("Package " ++ "left-pad-xyz-missing" ++ " not found."))
      (by rfl) (by rfl)).1,
    by rfl⟩
